import Mathlib

/-!
Verification of the Voice Session Controller of the Calendar Voice Agent
repository.  The controller under study is the full-featured frontend
variant (the one with the pending-text queue and the agent-speaking
debounce timer): global mutable variables `vapi`, `isCallActive`,
`pendingText`, `agentSpeakingTimer`, the DOM-driving `applyState`
function, the event handlers registered on the transport object
(`call-start`, `call-end`, `speech-start`, `speech-end`, `message`,
`error`), and the user-input handlers `handleMicClick` and
`handleTextSend`.

The embedding is a state machine: the controller's mutable globals form
the state `Ctrl`, and every asynchronous callback of the source becomes
a step of an explicit event-driven small-step semantics.  JavaScript
timers (`setTimeout`/`clearTimeout`) are modelled by giving every
scheduled callback a fresh numeric id drawn from the monotone counter
`nextId`: arming a timer appends a record carrying its id and its delay
in milliseconds, `clearTimeout` removes the record, and a timer-fire
event has an effect only when the fired id is still scheduled (a cleared
timer never runs its callback).  External non-determinism (microphone
permission results, backend pre-registration outcome, the transport's
start succeeding or throwing, the value produced by
`crypto.randomUUID()`) is supplied by the event as environment data.

Some fields of `Ctrl` are ghost observations that record calls the
controller makes into its collaborators without influencing any branch
of the translated code: `sent` (messages handed to `vapi.send`, each
tagged with the id of the scheduled flush that produced it, or `none`
for a direct send), `starts` (the metadata passed to `vapi.start`),
`activeCalls` (transport sessions started and not yet terminated),
`stops`, `micRequests` (calls to `getUserMedia`), and `permQueries`
(permission queries).  The ghost tag argument of `sendTextToVapi` and
the ghost first component of `pendingText` exist only so that
specifications can speak about one particular queued message; the
executable behaviour matches the source exactly.

User-input events (`micClick`, `textSend`) are gated on the control
availability that `applyState` configures in the DOM for the current UI
state (`micBtn.disabled`, the permission card with the retry button, and
`setTextSection`): a click can only occur when the corresponding control
is enabled, exactly as in the rendered page.
-/

namespace Voice

/-- The nine UI states of `applyState`. -/
inductive UiState where
  | idle
  | requestingMic
  | micDenied
  | connecting
  | listening
  | userSpeaking
  | agentSpeaking
  | callEnded
  | callError
deriving DecidableEq

/-- Result of `navigator.permissions.query({name:"microphone"})`. -/
inductive PermState where
  | granted
  | denied
  | prompt
deriving DecidableEq

/-- `localStorage`, modelled as an association list. -/
abbrev Store := List (String × String)

/-- `localStorage.getItem`. -/
def Store.get (st : Store) (k : String) : Option String :=
  (st.find? (fun kv => kv.1 == k)).map (fun kv => kv.2)

/-- `localStorage.setItem` (overwrite semantics). -/
def Store.set (st : Store) (k v : String) : Store :=
  (k, v) :: st.filter (fun kv => kv.1 != k)

/-- JavaScript truthiness of a nullable string: `null` and `""` are falsy. -/
def jsTruthy : Option String → Bool
  | none => false
  | some t => t != ""

/-- `getOrCreateUserId` from the source: read the persisted id under the
fixed key `calendarUserId`; if absent (or falsy) generate a fresh one and
persist it.  The value produced by `crypto.randomUUID()` is supplied by
the environment as `fresh`. -/
def getOrCreateUserId (fresh : String) (st : Store) : String × Store :=
  let userId := st.get "calendarUserId"
  if jsTruthy userId then (userId.getD "", st)
  else (fresh, st.set "calendarUserId" fresh)

/-- A scheduled debounce timer: its `setTimeout` handle id and the delay
it was armed with (milliseconds). -/
structure Timer where
  id : Nat
  delayMs : Nat
deriving DecidableEq

/-- A scheduled pending-text flush (the `setTimeout` in the `call-start`
handler): handle id, the captured text, and the settle delay. -/
structure Flush where
  id : Nat
  text : String
  delayMs : Nat
deriving DecidableEq

/-- One call to `vapi.send`, as observed by the transport.  `viaFlush` is
ghost provenance: the id of the scheduled flush whose callback performed
the send, `none` for a direct send from `handleTextSend`. -/
structure Sent where
  viaFlush : Option Nat
  text : String
deriving DecidableEq

/-- The metadata passed to one `vapi.start` call: the session id of the
constructed transport object, the `userId` variable value, and the
`sessionToken` variable value if it was included. -/
structure StartRec where
  sid : Nat
  userId : String
  token : Option String
deriving DecidableEq

/-- The controller's mutable globals plus ghost observations. -/
structure Ctrl where
  ui : UiState
  vapi : Option Nat
  isCallActive : Bool
  pendingText : Option (Nat × String)
  agentSpeakingTimer : Option Nat
  liveTimers : List Timer
  flushes : List Flush
  sent : List Sent
  starts : List StartRec
  activeCalls : List Nat
  stops : Nat
  micRequests : Nat
  permQueries : Nat
  store : Store
  nextId : Nat
deriving DecidableEq

/-- `applyState` restricted to the controller globals it mutates: the
current state label, and `isCallActive := false` in the `call-ended` and
`call-error` branches.  All other statements of the source function only
touch the DOM. -/
def applyState (s : Ctrl) (st : UiState) : Ctrl :=
  match st with
  | .callEnded => { s with ui := st, isCallActive := false }
  | .callError => { s with ui := st, isCallActive := false }
  | _ => { s with ui := st }

/-- The DOM control availability `applyState` configures per state. -/
structure UiProps where
  micDisabled : Bool
  permCardShown : Bool
  textVisible : Bool
  textEnabled : Bool
deriving DecidableEq

/-- Read off `applyState`: `micBtn.disabled` is reset to `false` and set
in `requesting-mic` and `connecting`; the permission card (holding the
retry button) is hidden and shown only in `mic-denied`; `setTextSection`
calls as in the source. -/
def uiProps : UiState → UiProps
  | .idle => ⟨false, false, false, true⟩
  | .requestingMic => ⟨true, false, false, true⟩
  | .micDenied => ⟨false, true, true, true⟩
  | .connecting => ⟨true, false, false, true⟩
  | .listening => ⟨false, false, true, true⟩
  | .userSpeaking => ⟨false, false, true, true⟩
  | .agentSpeaking => ⟨false, false, true, false⟩
  | .callEnded => ⟨false, false, false, true⟩
  | .callError => ⟨false, false, false, true⟩

/-- The mic button (or the retry button on the permission card) can be
clicked. -/
def micClickAllowed (ui : UiState) : Bool :=
  !(uiProps ui).micDisabled || (uiProps ui).permCardShown

/-- The text input can be used: its section is visible and enabled. -/
def textSendAllowed (ui : UiState) : Bool :=
  (uiProps ui).textVisible && (uiProps ui).textEnabled

/-- Environment data for one `handleMicClick` run: whether the
permission query throws, its result otherwise, and whether
`getUserMedia` succeeds. -/
structure MicEnv where
  queryThrows : Bool
  queryState : PermState
  requestGranted : Bool
deriving DecidableEq

/-- `getMicPermissionState`: the query result, or `prompt` if the query
mechanism itself throws. -/
def getMicPermissionState (menv : MicEnv) : PermState :=
  if menv.queryThrows then .prompt else menv.queryState

/-- Environment data for one `startCall` run: whether the backend
pre-registration fetch (or its json decoding) throws, the `token` field
of the response otherwise, and whether `new Vapi`/`vapi.start` throws. -/
structure StartEnv where
  preRegFails : Bool
  tokenField : Option String
  startFails : Bool
deriving DecidableEq

/-- `sendTextToVapi`: return without sending when `vapi` is null or no
call is active, otherwise hand the message to the transport.  The first
argument is ghost provenance recorded with the observation. -/
def sendTextToVapi (tag : Option Nat) (s : Ctrl) (text : String) : Ctrl :=
  if s.vapi.isNone || !s.isCallActive then s
  else { s with sent := s.sent ++ [⟨tag, text⟩] }

/-- The `call-start` handler: mark the call active, enter `listening`,
and if a pending text is queued (truthy), clear the slot and schedule a
flush of the captured text after the 600ms settle delay. -/
def onCallStart (s : Ctrl) : Ctrl :=
  let s1 := { s with isCallActive := true }
  let s2 := applyState s1 .listening
  match s2.pendingText with
  | some qt =>
      if qt.2 != "" then
        { s2 with pendingText := none,
                  flushes := s2.flushes ++ [⟨qt.1, qt.2, 600⟩] }
      else s2
  | none => s2

/-- The `call-end` handler: deactivate, drop the session reference,
cancel the debounce timer if one is pending, and enter `call-ended`. -/
def onCallEnd (s : Ctrl) : Ctrl :=
  let s1 := { s with isCallActive := false, vapi := none,
                     activeCalls := match s.vapi with
                       | some sid => s.activeCalls.filter (fun c => c != sid)
                       | none => s.activeCalls }
  let s2 := match s1.agentSpeakingTimer with
    | some tid =>
        { s1 with liveTimers := s1.liveTimers.filter (fun t => t.id != tid),
                  agentSpeakingTimer := none }
    | none => s1
  applyState s2 .callEnded

/-- The `speech-start` handler (user speech). -/
def onSpeechStart (s : Ctrl) : Ctrl :=
  if s.isCallActive then applyState s .userSpeaking else s

/-- The `speech-end` handler (user speech). -/
def onSpeechEnd (s : Ctrl) : Ctrl :=
  if s.isCallActive then applyState s .listening else s

/-- A transport `message` payload. -/
structure Msg where
  type : String
  role : String
  status : String
deriving DecidableEq

/-- The `message` handler: for an assistant `speech-update` during an
active call, a `started` status cancels any pending debounce timer and
enters `agent-speaking`; any other status arms the 800ms debounce timer
(without an immediate transition). -/
def onMessage (s : Ctrl) (msg : Msg) : Ctrl :=
  if msg.type == "speech-update" && s.isCallActive && msg.role == "assistant" then
    if msg.status == "started" then
      let s1 := match s.agentSpeakingTimer with
        | some tid =>
            { s with liveTimers := s.liveTimers.filter (fun t => t.id != tid),
                     agentSpeakingTimer := none }
        | none => s
      applyState s1 .agentSpeaking
    else
      { s with liveTimers := s.liveTimers ++ [⟨s.nextId, 800⟩],
               agentSpeakingTimer := some s.nextId,
               nextId := s.nextId + 1 }
  else s

/-- The `error` handler: deactivate, drop the session reference and
enter `call-error`.  (It does not touch the debounce timer.) -/
def onVapiError (s : Ctrl) : Ctrl :=
  let s1 := { s with isCallActive := false, vapi := none,
                     activeCalls := match s.vapi with
                       | some sid => s.activeCalls.filter (fun c => c != sid)
                       | none => s.activeCalls }
  applyState s1 .callError

/-- The callback of the debounce `setTimeout`: it runs only if the timer
is still scheduled (a cleared timer never fires); it unschedules itself,
nulls the handle, and returns to `listening` only if a call is still
active. -/
def onTimerFire (s : Ctrl) (tid : Nat) : Ctrl :=
  if s.liveTimers.any (fun t => t.id == tid) then
    let s1 := { s with liveTimers := s.liveTimers.filter (fun t => t.id != tid),
                       agentSpeakingTimer := none }
    if s1.isCallActive then applyState s1 .listening else s1
  else s

/-- The callback of the settle-delay `setTimeout` scheduled by the
`call-start` handler: if still scheduled, it unschedules itself and
calls `sendTextToVapi` with the captured text. -/
def onFlushFire (s : Ctrl) (fid : Nat) : Ctrl :=
  match s.flushes.find? (fun f => f.id == fid) with
  | some f =>
      sendTextToVapi (some fid)
        { s with flushes := s.flushes.filter (fun g => g.id != fid) } f.text
  | none => s

/-- `startCall`: enter `connecting`, resolve the identity, best-effort
pre-register it with the backend (failure swallowed), construct the
transport session and start it with `userId` and, when truthy, the
`sessionToken` as variable values.  A throw from construction or
`vapi.start` lands in the catch block: deactivate, null the reference,
enter `call-error`. -/
def startCall (env : StartEnv) (fresh : String) (s : Ctrl) : Ctrl :=
  let s1 := applyState s .connecting
  let us := getOrCreateUserId fresh s1.store
  let s2 := { s1 with store := us.2 }
  let sessionToken : Option String :=
    if env.preRegFails then none else env.tokenField
  let sid := s2.nextId
  let s3 := { s2 with vapi := some sid, nextId := s2.nextId + 1 }
  if env.startFails then
    applyState { s3 with isCallActive := false, vapi := none } .callError
  else
    { s3 with
        starts := s3.starts ++
          [⟨sid, us.1, if jsTruthy sessionToken then sessionToken else none⟩],
        activeCalls := s3.activeCalls ++ [sid] }

/-- `stopCall`: ask the transport to close if a session reference
exists; no state transition of its own. -/
def stopCall (s : Ctrl) : Ctrl :=
  match s.vapi with
  | some _ => { s with stops := s.stops + 1 }
  | none => s

/-- `handleMicClick`: stop when a call is active; otherwise enter
`requesting-mic`, query the permission state, settle at `mic-denied` on
`denied` (or on a refused request after `prompt`), and run `startCall`
otherwise. -/
def handleMicClick (menv : MicEnv) (senv : StartEnv) (fresh : String) (s : Ctrl) : Ctrl :=
  if s.isCallActive then stopCall s
  else
    let s1 := applyState s .requestingMic
    let s2 := { s1 with permQueries := s1.permQueries + 1 }
    match getMicPermissionState menv with
    | .denied => applyState s2 .micDenied
    | .prompt =>
        let s3 := { s2 with micRequests := s2.micRequests + 1 }
        if menv.requestGranted then startCall senv fresh s3
        else applyState s3 .micDenied
    | .granted => startCall senv fresh s2

/-- Strip leading and trailing whitespace from a character list. -/
def trimChars (l : List Char) : List Char :=
  ((l.dropWhile Char.isWhitespace).reverse.dropWhile Char.isWhitespace).reverse

/-- `String.prototype.trim`, modelled structurally over the character
list so that it evaluates. -/
def jsTrim (s : String) : String := ⟨trimChars s.data⟩

/-- `handleTextSend`: trim the input; do nothing on an empty result;
inject immediately when a call is live; otherwise queue the text as the
single pending slot (ghost-tagged with a fresh id) and start a call,
bypassing the microphone-permission gate. -/
def handleTextSend (senv : StartEnv) (fresh : String) (raw : String) (s : Ctrl) : Ctrl :=
  let text := jsTrim raw
  if text == "" then s
  else if s.isCallActive then sendTextToVapi none s text
  else
    let s1 := { s with pendingText := some (s.nextId, text), nextId := s.nextId + 1 }
    startCall senv fresh s1

/-- The event alphabet of the controller: user input (with its
environment data), the transport callbacks, and timer fires. -/
inductive Event where
  | micClick (menv : MicEnv) (senv : StartEnv) (fresh : String)
  | textSend (senv : StartEnv) (fresh : String) (raw : String)
  | callStart
  | callEnd
  | speechStart
  | speechEnd
  | message (msg : Msg)
  | vapiError
  | timerFire (tid : Nat)
  | flushFire (fid : Nat)
deriving DecidableEq

/-- One step: user-input events are gated on the control availability
`applyState` configured for the current state; transport and timer
events run their handlers. -/
def step (s : Ctrl) : Event → Ctrl
  | .micClick menv senv fresh =>
      if micClickAllowed s.ui then handleMicClick menv senv fresh s else s
  | .textSend senv fresh raw =>
      if textSendAllowed s.ui then handleTextSend senv fresh raw s else s
  | .callStart => onCallStart s
  | .callEnd => onCallEnd s
  | .speechStart => onSpeechStart s
  | .speechEnd => onSpeechEnd s
  | .message msg => onMessage s msg
  | .vapiError => onVapiError s
  | .timerFire tid => onTimerFire s tid
  | .flushFire fid => onFlushFire s fid

/-- Run a sequence of events. -/
def run (s : Ctrl) : List Event → Ctrl
  | [] => s
  | e :: es => run (step s e) es

/-- The page-load state: all globals at their declared initial values,
then `applyState("idle")`. -/
def initCtrl : Ctrl :=
  applyState
    { ui := .idle, vapi := none, isCallActive := false, pendingText := none,
      agentSpeakingTimer := none, liveTimers := [], flushes := [], sent := [],
      starts := [], activeCalls := [], stops := 0, micRequests := 0,
      permQueries := 0, store := [], nextId := 0 } .idle

/-- Handle ids of the scheduled debounce timers. -/
def timerIds (s : Ctrl) : List Nat := s.liveTimers.map Timer.id

/-- Handle ids of the scheduled pending-text flushes. -/
def flushIds (s : Ctrl) : List Nat := s.flushes.map Flush.id

/-- Ghost flush provenance tags of the messages sent so far. -/
def sentTags (s : Ctrl) : List Nat := s.sent.filterMap Sent.viaFlush

/-- Ghost id of the queued pending text, as a list. -/
def pendingIds (s : Ctrl) : List Nat := (s.pendingText.map Prod.fst).toList

/-- How many sends carry a given ghost flush tag. -/
def countTag (l : List Sent) (q : Nat) : Nat :=
  (l.filterMap Sent.viaFlush).count q

/-- Structural invariant of reachable controller states: all scheduled
ids are below the fresh-id counter, id lists are duplicate-free and
suitably disjoint, the ghost session accounting mirrors the single
session reference, and a session reference without an active call only
exists in the `connecting` state (whose controls are disabled). -/
def Inv (s : Ctrl) : Prop :=
  (∀ t ∈ s.liveTimers, t.id < s.nextId) ∧
  (∀ tid ∈ s.agentSpeakingTimer.toList, tid < s.nextId) ∧
  (∀ f ∈ s.flushes, f.id < s.nextId) ∧
  (∀ q ∈ pendingIds s, q < s.nextId) ∧
  (∀ q ∈ sentTags s, q < s.nextId) ∧
  (timerIds s).Nodup ∧
  (flushIds s).Nodup ∧
  (sentTags s).Nodup ∧
  (∀ q ∈ flushIds s, q ∉ sentTags s) ∧
  (∀ q ∈ pendingIds s, q ∉ flushIds s ∧ q ∉ sentTags s) ∧
  s.activeCalls = s.vapi.toList ∧
  (s.isCallActive = false → ∀ sid ∈ s.vapi.toList, s.ui = UiState.connecting)

instance (s : Ctrl) : Decidable (Inv s) := by
  unfold Inv; infer_instance

/-- Concrete environments and payloads used to exercise the controller on
explicit traces. -/
def menvGrant : MicEnv := ⟨false, PermState.granted, true⟩

/-- A permission environment whose query answers `denied`. -/
def menvDeny : MicEnv := ⟨false, PermState.denied, true⟩

/-- A permission environment whose query answers `prompt` and whose
`getUserMedia` succeeds. -/
def menvPrompt : MicEnv := ⟨false, PermState.prompt, true⟩

/-- A start environment where pre-registration and `vapi.start` succeed. -/
def senvOk : StartEnv := ⟨false, some "tok", false⟩

/-- A start environment where pre-registration fails but `vapi.start`
succeeds. -/
def senvNoReg : StartEnv := ⟨true, none, false⟩

/-- A start environment where `vapi.start` throws. -/
def senvFail : StartEnv := ⟨false, some "tok", true⟩

/-- The assistant `speech-update started` message. -/
def msgStarted : Msg := ⟨"speech-update", "assistant", "started"⟩

/-- The assistant `speech-update stopped` message. -/
def msgStopped : Msg := ⟨"speech-update", "assistant", "stopped"⟩

/-- An active mid-call state with the agent speaking: start granted, the
transport reported the call started, and an assistant utterance began. -/
def sAgent : Ctrl := run initCtrl
  [Event.micClick menvGrant senvOk "u1", Event.callStart, Event.message msgStarted]

/-- A `mic-denied` state (query answered `denied`), where the text-input
fallback is available. -/
def sDenied : Ctrl := run initCtrl [Event.micClick menvDeny senvOk "u1"]

/-- An active `listening` state right after a granted start. -/
def sLive : Ctrl := run initCtrl [Event.micClick menvGrant senvOk "u1", Event.callStart]

/-! ## Helper lemmas -/

theorem nodup_append_singleton {l : List Nat} {a : Nat}
    (h : l.Nodup) (ha : a ∉ l) : (l ++ [a]).Nodup := by
  simp [List.nodup_append, h, ha]

theorem timerIds_map_filter (l : List Timer) (tid : Nat) :
    (l.filter (fun t => t.id != tid)).map Timer.id
      = (l.map Timer.id).filter (fun i => i != tid) := by
  induction l with
  | nil => rfl
  | cons t ts ih =>
      by_cases h : t.id = tid <;> simp [h, ih]

theorem flushIds_map_filter (l : List Flush) (fid : Nat) :
    (l.filter (fun f => f.id != fid)).map Flush.id
      = (l.map Flush.id).filter (fun i => i != fid) := by
  induction l with
  | nil => rfl
  | cons f fs ih =>
      by_cases h : f.id = fid <;> simp [h, ih]


theorem inv_onCallStart {s : Ctrl} (h : Inv s) : Inv (onCallStart s) := by
  obtain ⟨h1, h2, h3, h4, h5, h6, h7, h8, h9, h10, h11, h12⟩ := h
  unfold onCallStart
  cases hp : s.pendingText with
  | none =>
      simp only [applyState, hp]
      exact ⟨h1, h2, h3, by simp [pendingIds, hp], h5, h6, h7, h8, h9,
        by simp [pendingIds, hp], h11, by simp⟩
  | some qt =>
      simp only [applyState, hp]
      by_cases ht : qt.2 != ""
      · have hq : qt.1 ∈ pendingIds s := by simp [pendingIds, hp]
        simp only [ht, if_pos]
        refine ⟨h1, h2, ?_, by simp [pendingIds], ?_, h6, ?_, h8, ?_,
          by simp [pendingIds], h11, by simp⟩
        · intro f hf
          rcases List.mem_append.mp hf with hf | hf
          · exact h3 f hf
          · simp at hf; subst hf; exact h4 _ hq
        · exact h5
        · simp only [flushIds, List.map_append, List.map_cons, List.map_nil]
          exact nodup_append_singleton h7 ((h10 _ hq).1)
        · intro q hq2
          simp only [flushIds, List.map_append, List.map_cons, List.map_nil,
            List.mem_append, List.mem_singleton] at hq2
          rcases hq2 with hq2 | hq2
          · exact h9 q hq2
          · subst hq2; exact (h10 _ hq).2
      · simp only [ht, if_neg]
        exact ⟨h1, h2, h3, by simpa [pendingIds, hp] using h4,
          h5, h6, h7, h8, h9, by simpa [pendingIds, hp] using h10, h11, by simp⟩


theorem inv_onCallEnd {s : Ctrl} (h : Inv s) : Inv (onCallEnd s) := by
  obtain ⟨h1, h2, h3, h4, h5, h6, h7, h8, h9, h10, h11, h12⟩ := h
  unfold onCallEnd
  cases hv : s.vapi with
  | none =>
      cases hA : s.agentSpeakingTimer with
      | none =>
          simp only [applyState]
          exact ⟨h1, by simp, h3, h4, h5, h6, h7, h8, h9, h10,
            by simpa [hv] using h11, by simp⟩
      | some tid =>
          simp only [applyState]
          refine ⟨?_, by simp, h3, h4, h5, ?_, h7, h8, h9, h10,
            by simpa [hv] using h11, by simp⟩
          · exact fun t ht => h1 t (List.mem_of_mem_filter ht)
          · simp only [timerIds, timerIds_map_filter]
            exact List.Nodup.filter _ h6
  | some sid =>
      cases hA : s.agentSpeakingTimer with
      | none =>
          simp only [applyState]
          refine ⟨h1, by simp, h3, h4, h5, h6, h7, h8, h9, h10, ?_, by simp⟩
          · rw [h11, hv]; simp
      | some tid =>
          simp only [applyState]
          refine ⟨?_, by simp, h3, h4, h5, ?_, h7, h8, h9, h10, ?_, by simp⟩
          · exact fun t ht => h1 t (List.mem_of_mem_filter ht)
          · simp only [timerIds, timerIds_map_filter]
            exact List.Nodup.filter _ h6
          · rw [h11, hv]; simp

theorem inv_onVapiError {s : Ctrl} (h : Inv s) : Inv (onVapiError s) := by
  obtain ⟨h1, h2, h3, h4, h5, h6, h7, h8, h9, h10, h11, h12⟩ := h
  unfold onVapiError
  cases hv : s.vapi with
  | none =>
      simp only [applyState]
      exact ⟨h1, h2, h3, h4, h5, h6, h7, h8, h9, h10,
        by simpa [hv] using h11, by simp⟩
  | some sid =>
      simp only [applyState]
      refine ⟨h1, h2, h3, h4, h5, h6, h7, h8, h9, h10, ?_, by simp⟩
      · rw [h11, hv]; simp



theorem inv_onSpeechStart {s : Ctrl} (h : Inv s) : Inv (onSpeechStart s) := by
  obtain ⟨h1, h2, h3, h4, h5, h6, h7, h8, h9, h10, h11, h12⟩ := h
  unfold onSpeechStart
  by_cases ha : s.isCallActive
  · simp only [ha, if_pos, applyState]
    exact ⟨h1, h2, h3, h4, h5, h6, h7, h8, h9, h10, h11, by simp [ha]⟩
  · simp only [ha, if_neg]
    exact ⟨h1, h2, h3, h4, h5, h6, h7, h8, h9, h10, h11, h12⟩

theorem inv_onSpeechEnd {s : Ctrl} (h : Inv s) : Inv (onSpeechEnd s) := by
  obtain ⟨h1, h2, h3, h4, h5, h6, h7, h8, h9, h10, h11, h12⟩ := h
  unfold onSpeechEnd
  by_cases ha : s.isCallActive
  · simp only [ha, if_pos, applyState]
    exact ⟨h1, h2, h3, h4, h5, h6, h7, h8, h9, h10, h11, by simp [ha]⟩
  · simp only [ha, if_neg]
    exact ⟨h1, h2, h3, h4, h5, h6, h7, h8, h9, h10, h11, h12⟩

theorem inv_onMessage {s : Ctrl} (msg : Msg) (h : Inv s) : Inv (onMessage s msg) := by
  obtain ⟨h1, h2, h3, h4, h5, h6, h7, h8, h9, h10, h11, h12⟩ := h
  unfold onMessage
  by_cases hc : (msg.type == "speech-update" && s.isCallActive && msg.role == "assistant") = true
  · have ha : s.isCallActive = true := by
      simp only [Bool.and_eq_true] at hc; exact hc.1.2
    rw [if_pos hc]
    by_cases hst : (msg.status == "started") = true
    · rw [if_pos hst]
      cases hA : s.agentSpeakingTimer with
      | none =>
          simp only [applyState]
          exact ⟨h1, h2, h3, h4, h5, h6, h7, h8, h9, h10, h11, by simp [ha]⟩
      | some tid =>
          simp only [applyState]
          refine ⟨?_, by simp, h3, h4, h5, ?_, h7, h8, h9, h10, h11, by simp [ha]⟩
          · exact fun t ht => h1 t (List.mem_of_mem_filter ht)
          · simp only [timerIds, timerIds_map_filter]
            exact List.Nodup.filter _ h6
    · rw [if_neg hst]
      have hfresh : s.nextId ∉ timerIds s := by
        intro hmem
        simp only [timerIds, List.mem_map] at hmem
        obtain ⟨t, ht, hts⟩ := hmem
        exact absurd (hts ▸ h1 t ht) (Nat.lt_irrefl _)
      refine ⟨?_, ?_, ?_, ?_, ?_, ?_, h7, h8, h9, h10, h11, by simp [ha]⟩
      · intro t ht
        rcases List.mem_append.mp ht with ht | ht
        · exact Nat.lt_succ_of_lt (h1 t ht)
        · simp at ht; subst ht; exact Nat.lt_succ_self _
      · simp
      · exact fun f hf => Nat.lt_succ_of_lt (h3 f hf)
      · exact fun q hq => Nat.lt_succ_of_lt (h4 q hq)
      · exact fun q hq => Nat.lt_succ_of_lt (h5 q hq)
      · simp only [timerIds, List.map_append, List.map_cons, List.map_nil]
        exact nodup_append_singleton h6 hfresh
  · rw [if_neg hc]
    exact ⟨h1, h2, h3, h4, h5, h6, h7, h8, h9, h10, h11, h12⟩

theorem inv_onTimerFire {s : Ctrl} (tid : Nat) (h : Inv s) : Inv (onTimerFire s tid) := by
  obtain ⟨h1, h2, h3, h4, h5, h6, h7, h8, h9, h10, h11, h12⟩ := h
  unfold onTimerFire
  by_cases hl : (s.liveTimers.any fun t => t.id == tid) = true
  · rw [if_pos hl]
    by_cases ha : s.isCallActive
    · simp only [ha, if_pos, applyState]
      refine ⟨?_, by simp, h3, h4, h5, ?_, h7, h8, h9, h10, h11, by simp [ha]⟩
      · exact fun t ht => h1 t (List.mem_of_mem_filter ht)
      · simp only [timerIds, timerIds_map_filter]
        exact List.Nodup.filter _ h6
    · simp only [ha, if_neg, Bool.false_eq_true, not_false_iff]
      refine ⟨?_, by simp, h3, h4, h5, ?_, h7, h8, h9, h10, h11, ?_⟩
      · exact fun t ht => h1 t (List.mem_of_mem_filter ht)
      · simp only [timerIds, timerIds_map_filter]
        exact List.Nodup.filter _ h6
      · intro _ sid hsid
        exact h12 (by simpa using ha) sid hsid
  · rw [if_neg hl]
    exact ⟨h1, h2, h3, h4, h5, h6, h7, h8, h9, h10, h11, h12⟩


theorem inv_onFlushFire {s : Ctrl} (fid : Nat) (h : Inv s) : Inv (onFlushFire s fid) := by
  obtain ⟨h1, h2, h3, h4, h5, h6, h7, h8, h9, h10, h11, h12⟩ := h
  unfold onFlushFire
  cases hf : s.flushes.find? (fun f => f.id == fid) with
  | none => exact ⟨h1, h2, h3, h4, h5, h6, h7, h8, h9, h10, h11, h12⟩
  | some f =>
      have hmem : f ∈ s.flushes := List.mem_of_find?_eq_some hf
      have hfid : f.id = fid := by
        have := List.find?_some hf
        simpa using this
      have hfidmem : fid ∈ flushIds s := by
        simp only [flushIds, List.mem_map]
        exact ⟨f, hmem, hfid⟩
      have hsub : ∀ q, q ∈ (s.flushes.filter (fun g => g.id != fid)).map Flush.id →
          q ∈ flushIds s ∧ q ≠ fid := by
        intro q hq
        rw [flushIds_map_filter] at hq
        have := List.mem_filter.mp hq
        exact ⟨this.1, by simpa using this.2⟩
      have hnodupf : ((s.flushes.filter (fun g => g.id != fid)).map Flush.id).Nodup := by
        rw [flushIds_map_filter]
        exact List.Nodup.filter _ h7
      unfold sendTextToVapi
      by_cases hg : (s.vapi.isNone || !s.isCallActive) = true
      · simp only [hg, if_pos]
        refine ⟨h1, h2, ?_, ?_, h5, h6, hnodupf, h8, ?_, ?_, h11, h12⟩
        · exact fun g hgm => h3 g (List.mem_of_mem_filter hgm)
        · intro q hq
          exact h4 q hq
        · exact fun q hq => h9 q (hsub q hq).1
        · intro q hq
          exact ⟨fun hmemf => (h10 q hq).1 (hsub q hmemf).1, (h10 q hq).2⟩
      · simp only [hg, if_neg, Bool.false_eq_true, not_false_iff]
        have hsent : sentTags { s with
            flushes := s.flushes.filter (fun g => g.id != fid),
            sent := s.sent ++ [⟨some fid, f.text⟩] } = sentTags s ++ [fid] := by
          simp [sentTags, List.filterMap_append]
        refine ⟨h1, h2, ?_, ?_, ?_, h6, hnodupf, ?_, ?_, ?_, h11, h12⟩
        · exact fun g hgm => h3 g (List.mem_of_mem_filter hgm)
        · intro q hq
          exact h4 q hq
        · intro q hq
          rw [hsent] at hq
          rcases List.mem_append.mp hq with hq | hq
          · exact h5 q hq
          · simp at hq; subst hq; exact hfid ▸ h3 f hmem
        · rw [hsent]
          exact nodup_append_singleton h8 (h9 fid hfidmem)
        · intro q hq
          rw [hsent]
          intro hq2
          rcases List.mem_append.mp hq2 with hq2 | hq2
          · exact h9 q (hsub q hq).1 hq2
          · simp at hq2; exact (hsub q hq).2 hq2
        · intro q hq
          rw [hsent]
          refine ⟨fun hmemf => (h10 q hq).1 (hsub q hmemf).1, ?_⟩
          intro hq2
          rcases List.mem_append.mp hq2 with hq2 | hq2
          · exact (h10 q hq).2 hq2
          · simp at hq2; subst hq2; exact (h10 q hq).1 hfidmem


theorem inv_startCall {s : Ctrl} (env : StartEnv) (fresh : String)
    (h : Inv s) (hv : s.vapi = none) : Inv (startCall env fresh s) := by
  obtain ⟨h1, h2, h3, h4, h5, h6, h7, h8, h9, h10, h11, h12⟩ := h
  have hac : s.activeCalls = [] := by rw [h11, hv]; rfl
  unfold startCall
  simp only [applyState]
  by_cases hsf : env.startFails = true
  · simp only [hsf, if_pos]
    exact ⟨fun t ht => Nat.lt_succ_of_lt (h1 t ht),
      fun tid htid => Nat.lt_succ_of_lt (h2 tid htid),
      fun f hf => Nat.lt_succ_of_lt (h3 f hf),
      fun q hq => Nat.lt_succ_of_lt (h4 q hq),
      fun q hq => Nat.lt_succ_of_lt (h5 q hq),
      h6, h7, h8, h9, h10, by simpa using hac, by simp⟩
  · simp only [hsf, if_neg, Bool.false_eq_true, not_false_iff]
    refine ⟨fun t ht => Nat.lt_succ_of_lt (h1 t ht),
      fun tid htid => Nat.lt_succ_of_lt (h2 tid htid),
      fun f hf => Nat.lt_succ_of_lt (h3 f hf),
      fun q hq => Nat.lt_succ_of_lt (h4 q hq),
      fun q hq => Nat.lt_succ_of_lt (h5 q hq),
      h6, h7, h8, h9, h10, by simp [hac], ?_⟩
    intro _ sid hsid
    simp at hsid
    rfl

theorem stopCall_eq_none {s : Ctrl} (hv : s.vapi = none) : stopCall s = s := by
  simp [stopCall, hv]

theorem stopCall_eq_some {s : Ctrl} {sid : Nat} (hv : s.vapi = some sid) :
    stopCall s = { s with stops := s.stops + 1 } := by
  simp [stopCall, hv]

theorem inv_stopCall {s : Ctrl} (h : Inv s) : Inv (stopCall s) := by
  obtain ⟨h1, h2, h3, h4, h5, h6, h7, h8, h9, h10, h11, h12⟩ := h
  cases hv : s.vapi with
  | none => rw [stopCall_eq_none hv]; exact ⟨h1, h2, h3, h4, h5, h6, h7, h8, h9, h10, h11, h12⟩
  | some sid =>
      rw [stopCall_eq_some hv]
      exact ⟨h1, h2, h3, h4, h5, h6, h7, h8, h9, h10, h11, h12⟩

theorem vapi_none_of_micGate {s : Ctrl} (h : Inv s)
    (ha : s.isCallActive = false) (hg : micClickAllowed s.ui = true) :
    s.vapi = none := by
  cases hv : s.vapi with
  | none => rfl
  | some sid =>
      have := h.2.2.2.2.2.2.2.2.2.2.2 ha sid (by simp [hv])
      rw [this] at hg
      simp [micClickAllowed, uiProps] at hg

theorem vapi_none_of_textGate {s : Ctrl} (h : Inv s)
    (ha : s.isCallActive = false) (hg : textSendAllowed s.ui = true) :
    s.vapi = none := by
  cases hv : s.vapi with
  | none => rfl
  | some sid =>
      have := h.2.2.2.2.2.2.2.2.2.2.2 ha sid (by simp [hv])
      rw [this] at hg
      simp [textSendAllowed, uiProps] at hg

theorem inv_handleMicClick {s : Ctrl} (menv : MicEnv) (senv : StartEnv) (fresh : String)
    (h : Inv s) (hg : micClickAllowed s.ui = true) :
    Inv (handleMicClick menv senv fresh s) := by
  by_cases ha : s.isCallActive = true
  · unfold handleMicClick
    rw [if_pos ha]
    exact inv_stopCall h
  · have ha2 : s.isCallActive = false := by simpa using ha
    have hv : s.vapi = none := vapi_none_of_micGate h ha2 hg
    obtain ⟨h1, h2, h3, h4, h5, h6, h7, h8, h9, h10, h11, h12⟩ := h
    unfold handleMicClick
    rw [if_neg (by simp [ha2])]
    simp only [applyState]
    cases hperm : getMicPermissionState menv with
    | denied =>
        exact ⟨h1, h2, h3, h4, h5, h6, h7, h8, h9, h10, h11, by simp [hv]⟩
    | prompt =>
        by_cases hr : menv.requestGranted = true
        · simp only [hr, if_pos]
          exact inv_startCall senv fresh
            ⟨h1, h2, h3, h4, h5, h6, h7, h8, h9, h10, h11, by simp [hv]⟩ hv
        · simp only [hr, if_neg, Bool.false_eq_true, not_false_iff]
          exact ⟨h1, h2, h3, h4, h5, h6, h7, h8, h9, h10, h11, by simp [hv]⟩
    | granted =>
        exact inv_startCall senv fresh
          ⟨h1, h2, h3, h4, h5, h6, h7, h8, h9, h10, h11, by simp [hv]⟩ hv

theorem inv_handleTextSend {s : Ctrl} (senv : StartEnv) (fresh : String) (raw : String)
    (h : Inv s) (hg : textSendAllowed s.ui = true) :
    Inv (handleTextSend senv fresh raw s) := by
  obtain ⟨h1, h2, h3, h4, h5, h6, h7, h8, h9, h10, h11, h12⟩ := h
  unfold handleTextSend
  by_cases he : (jsTrim raw == "") = true
  · rw [if_pos he]
    exact ⟨h1, h2, h3, h4, h5, h6, h7, h8, h9, h10, h11, h12⟩
  · rw [if_neg he]
    by_cases ha : s.isCallActive = true
    · rw [if_pos ha]
      unfold sendTextToVapi
      by_cases hgd : (s.vapi.isNone || !s.isCallActive) = true
      · rw [if_pos hgd]
        exact ⟨h1, h2, h3, h4, h5, h6, h7, h8, h9, h10, h11, h12⟩
      · rw [if_neg hgd]
        have hsent : sentTags { s with sent := s.sent ++ [⟨none, jsTrim raw⟩] }
            = sentTags s := by
          simp [sentTags, List.filterMap_append]
        refine ⟨h1, h2, h3, h4, ?_, h6, h7, ?_, ?_, ?_, h11, by simp [ha]⟩
        · rw [hsent]; exact h5
        · rw [hsent]; exact h8
        · intro q hq; rw [hsent]; exact h9 q hq
        · intro q hq; rw [hsent]; exact h10 q hq
    · have ha2 : s.isCallActive = false := by simpa using ha
      have hv : s.vapi = none := vapi_none_of_textGate
        ⟨h1, h2, h3, h4, h5, h6, h7, h8, h9, h10, h11, h12⟩ ha2 hg
      rw [if_neg ha]
      have hfree1 : s.nextId ∉ flushIds s := by
        intro hmem
        simp only [flushIds, List.mem_map] at hmem
        obtain ⟨f, hf, hfs⟩ := hmem
        exact absurd (hfs ▸ h3 f hf) (Nat.lt_irrefl _)
      have hfree2 : s.nextId ∉ sentTags s := by
        intro hmem
        exact absurd (h5 _ hmem) (Nat.lt_irrefl _)
      refine inv_startCall senv fresh ?_ hv
      refine ⟨fun t ht => Nat.lt_succ_of_lt (h1 t ht),
        fun tid htid => Nat.lt_succ_of_lt (h2 tid htid),
        fun f hf => Nat.lt_succ_of_lt (h3 f hf),
        ?_,
        fun q hq => Nat.lt_succ_of_lt (h5 q hq),
        h6, h7, h8, h9, ?_, h11, by simp [hv]⟩
      · intro q hq
        simp [pendingIds] at hq
        subst hq
        exact Nat.lt_succ_self _
      · intro q hq
        simp [pendingIds] at hq
        subst hq
        exact ⟨hfree1, hfree2⟩

theorem inv_step {s : Ctrl} (e : Event) (h : Inv s) : Inv (step s e) := by
  cases e with
  | micClick menv senv fresh =>
      simp only [step]
      by_cases hg : micClickAllowed s.ui = true
      · rw [if_pos hg]; exact inv_handleMicClick menv senv fresh h hg
      · rw [if_neg hg]; exact h
  | textSend senv fresh raw =>
      simp only [step]
      by_cases hg : textSendAllowed s.ui = true
      · rw [if_pos hg]; exact inv_handleTextSend senv fresh raw h hg
      · rw [if_neg hg]; exact h
  | callStart => exact inv_onCallStart h
  | callEnd => exact inv_onCallEnd h
  | speechStart => exact inv_onSpeechStart h
  | speechEnd => exact inv_onSpeechEnd h
  | message msg => exact inv_onMessage msg h
  | vapiError => exact inv_onVapiError h
  | timerFire tid => exact inv_onTimerFire tid h
  | flushFire fid => exact inv_onFlushFire fid h

theorem inv_run {s : Ctrl} (es : List Event) (h : Inv s) : Inv (run s es) := by
  induction es generalizing s with
  | nil => exact h
  | cons e es ih => exact ih (inv_step e h)


theorem startCall_pendingText (env : StartEnv) (fresh : String) (s : Ctrl) :
    (startCall env fresh s).pendingText = s.pendingText := by
  by_cases hsf : env.startFails = true <;>
    simp [startCall, applyState, hsf]

theorem startCall_micRequests (env : StartEnv) (fresh : String) (s : Ctrl) :
    (startCall env fresh s).micRequests = s.micRequests := by
  by_cases hsf : env.startFails = true <;>
    simp [startCall, applyState, hsf]

theorem startCall_permQueries (env : StartEnv) (fresh : String) (s : Ctrl) :
    (startCall env fresh s).permQueries = s.permQueries := by
  by_cases hsf : env.startFails = true <;>
    simp [startCall, applyState, hsf]

theorem startCall_sent (env : StartEnv) (fresh : String) (s : Ctrl) :
    (startCall env fresh s).sent = s.sent := by
  by_cases hsf : env.startFails = true <;>
    simp [startCall, applyState, hsf]

theorem startCall_flushes (env : StartEnv) (fresh : String) (s : Ctrl) :
    (startCall env fresh s).flushes = s.flushes := by
  by_cases hsf : env.startFails = true <;>
    simp [startCall, applyState, hsf]

theorem startCall_liveTimers (env : StartEnv) (fresh : String) (s : Ctrl) :
    (startCall env fresh s).liveTimers = s.liveTimers := by
  by_cases hsf : env.startFails = true <;>
    simp [startCall, applyState, hsf]

theorem startCall_nextId (env : StartEnv) (fresh : String) (s : Ctrl) :
    (startCall env fresh s).nextId = s.nextId + 1 := by
  by_cases hsf : env.startFails = true <;>
    simp [startCall, applyState, hsf]

theorem startCall_fail (env : StartEnv) (fresh : String) (s : Ctrl)
    (hsf : env.startFails = true) :
    (startCall env fresh s).ui = UiState.callError ∧
    (startCall env fresh s).vapi = none ∧
    (startCall env fresh s).isCallActive = false ∧
    (startCall env fresh s).starts = s.starts := by
  simp [startCall, applyState, hsf]

theorem startCall_ok (env : StartEnv) (fresh : String) (s : Ctrl)
    (hsf : env.startFails = false) :
    (startCall env fresh s).ui = UiState.connecting ∧
    (startCall env fresh s).vapi = some s.nextId ∧
    (startCall env fresh s).isCallActive = s.isCallActive ∧
    (startCall env fresh s).starts = s.starts ++
      [⟨s.nextId, (getOrCreateUserId fresh s.store).1,
        if jsTruthy (if env.preRegFails then none else env.tokenField)
        then (if env.preRegFails then none else env.tokenField) else none⟩] := by
  simp [startCall, applyState, hsf]


theorem onMessage_stopped {s : Ctrl} (ha : s.isCallActive = true) :
    onMessage s ⟨"speech-update", "assistant", "stopped"⟩ =
      { s with liveTimers := s.liveTimers ++ [⟨s.nextId, 800⟩],
               agentSpeakingTimer := some s.nextId,
               nextId := s.nextId + 1 } := by
  simp [onMessage, ha]

theorem onMessage_started_cancel {s : Ctrl} {tid : Nat}
    (ha : s.isCallActive = true) (hA : s.agentSpeakingTimer = some tid) :
    onMessage s ⟨"speech-update", "assistant", "started"⟩ =
      { s with liveTimers := s.liveTimers.filter (fun t => t.id != tid),
               agentSpeakingTimer := none,
               ui := UiState.agentSpeaking } := by
  simp [onMessage, ha, hA, applyState]

theorem onTimerFire_not_live {s : Ctrl} {tid : Nat}
    (hd : tid ∉ timerIds s) : onTimerFire s tid = s := by
  unfold onTimerFire
  rw [if_neg]
  simp only [List.any_eq_true, not_exists, beq_iff_eq, not_and]
  intro t ht hts
  exact absurd (by simp only [timerIds, List.mem_map]; exact ⟨t, ht, hts⟩) hd

theorem nextId_le_step (s : Ctrl) (e : Event) : s.nextId ≤ (step s e).nextId := by
  cases e with
  | micClick menv senv fresh =>
      simp only [step]
      by_cases hg : micClickAllowed s.ui = true
      · rw [if_pos hg]
        unfold handleMicClick
        by_cases ha : s.isCallActive = true
        · rw [if_pos ha]
          cases hv : s.vapi with
          | none => rw [stopCall_eq_none hv]
          | some sid => rw [stopCall_eq_some hv]
        · rw [if_neg ha]
          simp only [applyState]
          cases hperm : getMicPermissionState menv with
          | denied => exact le_refl _
          | prompt =>
              by_cases hr : menv.requestGranted = true
              · simp only [hr, if_pos, startCall_nextId]; omega
              · simp only [hr, if_neg, Bool.false_eq_true, not_false_iff]
                exact le_refl _
          | granted => simp only [startCall_nextId]; omega
      · rw [if_neg hg]
  | textSend senv fresh raw =>
      simp only [step]
      by_cases hg : textSendAllowed s.ui = true
      · rw [if_pos hg]
        unfold handleTextSend
        by_cases he : (jsTrim raw == "") = true
        · rw [if_pos he]
        · rw [if_neg he]
          by_cases ha : s.isCallActive = true
          · rw [if_pos ha]
            unfold sendTextToVapi
            by_cases hgd : (s.vapi.isNone || !s.isCallActive) = true
            · rw [if_pos hgd]
            · rw [if_neg hgd]
          · rw [if_neg ha]
            simp only [startCall_nextId]
            omega
      · rw [if_neg hg]
  | callStart =>
      simp only [step]
      unfold onCallStart
      cases hp : s.pendingText with
      | none => simp [applyState]
      | some qt =>
          by_cases ht : (qt.2 != "") = true <;> simp [applyState, ht]
  | callEnd =>
      simp only [step]
      unfold onCallEnd
      cases hA : s.agentSpeakingTimer <;> cases hv : s.vapi <;> simp [applyState, hA, hv]
  | speechStart =>
      simp only [step]
      unfold onSpeechStart
      by_cases ha : s.isCallActive = true <;> simp [applyState, ha]
  | speechEnd =>
      simp only [step]
      unfold onSpeechEnd
      by_cases ha : s.isCallActive = true <;> simp [applyState, ha]
  | message msg =>
      simp only [step]
      unfold onMessage
      by_cases hc : (msg.type == "speech-update" && s.isCallActive && msg.role == "assistant") = true
      · rw [if_pos hc]
        by_cases hst : (msg.status == "started") = true
        · rw [if_pos hst]
          cases hA : s.agentSpeakingTimer <;> simp [applyState]
        · rw [if_neg hst]
          simp only []
          omega
      · rw [if_neg hc]
  | vapiError =>
      simp only [step]
      unfold onVapiError
      cases hv : s.vapi <;> simp [applyState, hv]
  | timerFire tid =>
      simp only [step]
      unfold onTimerFire
      by_cases hl : (s.liveTimers.any fun t => t.id == tid) = true
      · rw [if_pos hl]
        by_cases ha : s.isCallActive = true <;> simp [applyState, ha]
      · rw [if_neg hl]
  | flushFire fid =>
      simp only [step]
      unfold onFlushFire
      cases hf : s.flushes.find? (fun f => f.id == fid) with
      | none => exact le_refl _
      | some f =>
          unfold sendTextToVapi
          by_cases hgd : (s.vapi.isNone || !s.isCallActive) = true <;> simp [hgd]


theorem timerIds_step {s : Ctrl} (e : Event) :
    ∀ i ∈ timerIds (step s e), i ∈ timerIds s ∨ i = s.nextId := by
  intro i hi
  cases e with
  | micClick menv senv fresh =>
      left
      simp only [step] at hi
      by_cases hg : micClickAllowed s.ui = true
      · rw [if_pos hg] at hi
        unfold handleMicClick at hi
        by_cases ha : s.isCallActive = true
        · rw [if_pos ha] at hi
          cases hv : s.vapi with
          | none => rwa [stopCall_eq_none hv] at hi
          | some sid => rwa [stopCall_eq_some hv] at hi
        · rw [if_neg ha] at hi
          simp only [applyState] at hi
          cases hperm : getMicPermissionState menv with
          | denied => rw [hperm] at hi; simpa [timerIds] using hi
          | prompt =>
              rw [hperm] at hi
              by_cases hr : menv.requestGranted = true
              · simp only [hr, if_pos] at hi
                simpa [timerIds, startCall_liveTimers] using hi
              · simp only [hr, if_neg, Bool.false_eq_true, not_false_iff] at hi
                simpa [timerIds] using hi
          | granted =>
              rw [hperm] at hi
              simpa [timerIds, startCall_liveTimers] using hi
      · rwa [if_neg hg] at hi
  | textSend senv fresh raw =>
      left
      simp only [step] at hi
      by_cases hg : textSendAllowed s.ui = true
      · rw [if_pos hg] at hi
        unfold handleTextSend at hi
        by_cases he : (jsTrim raw == "") = true
        · rwa [if_pos he] at hi
        · rw [if_neg he] at hi
          by_cases ha : s.isCallActive = true
          · rw [if_pos ha] at hi
            unfold sendTextToVapi at hi
            by_cases hgd : (s.vapi.isNone || !s.isCallActive) = true
            · rwa [if_pos hgd] at hi
            · rw [if_neg hgd] at hi
              simpa [timerIds] using hi
          · rw [if_neg ha] at hi
            simpa [timerIds, startCall_liveTimers] using hi
      · rwa [if_neg hg] at hi
  | callStart =>
      left
      simp only [step] at hi
      unfold onCallStart at hi
      cases hp : s.pendingText with
      | none => rw [hp] at hi; simpa [applyState, timerIds] using hi
      | some qt =>
          rw [hp] at hi
          by_cases ht : (qt.2 != "") = true <;>
            simp only [applyState, ht, if_pos, if_neg, Bool.false_eq_true, not_false_iff] at hi <;>
            simpa [timerIds] using hi
  | callEnd =>
      left
      simp only [step] at hi
      unfold onCallEnd at hi
      cases hA : s.agentSpeakingTimer with
      | none => rw [hA] at hi; simpa [applyState, timerIds] using hi
      | some tid =>
          rw [hA] at hi
          simp only [applyState, timerIds, List.mem_map] at hi
          obtain ⟨t, ht, hts⟩ := hi
          simp only [timerIds, List.mem_map]
          exact ⟨t, List.mem_of_mem_filter ht, hts⟩
  | speechStart =>
      left
      simp only [step] at hi
      unfold onSpeechStart at hi
      by_cases ha : s.isCallActive = true <;>
        simp only [ha, if_pos, if_neg, Bool.false_eq_true, not_false_iff] at hi <;>
        simpa [applyState, timerIds] using hi
  | speechEnd =>
      left
      simp only [step] at hi
      unfold onSpeechEnd at hi
      by_cases ha : s.isCallActive = true <;>
        simp only [ha, if_pos, if_neg, Bool.false_eq_true, not_false_iff] at hi <;>
        simpa [applyState, timerIds] using hi
  | message msg =>
      simp only [step] at hi
      unfold onMessage at hi
      by_cases hc : (msg.type == "speech-update" && s.isCallActive && msg.role == "assistant") = true
      · rw [if_pos hc] at hi
        by_cases hst : (msg.status == "started") = true
        · left
          rw [if_pos hst] at hi
          cases hA : s.agentSpeakingTimer with
          | none => rw [hA] at hi; simpa [applyState, timerIds] using hi
          | some tid =>
              rw [hA] at hi
              simp only [applyState, timerIds, List.mem_map] at hi
              obtain ⟨t, ht, hts⟩ := hi
              simp only [timerIds, List.mem_map]
              exact ⟨t, List.mem_of_mem_filter ht, hts⟩
        · rw [if_neg hst] at hi
          simp only [timerIds, List.map_append, List.map_cons, List.map_nil,
            List.mem_append, List.mem_singleton] at hi
          rcases hi with hi | hi
          · exact Or.inl (by simpa [timerIds] using hi)
          · exact Or.inr hi
      · left; rwa [if_neg hc] at hi
  | vapiError =>
      left
      simp only [step] at hi
      unfold onVapiError at hi
      simpa [applyState, timerIds] using hi
  | timerFire tid =>
      left
      simp only [step] at hi
      unfold onTimerFire at hi
      by_cases hl : (s.liveTimers.any fun t => t.id == tid) = true
      · rw [if_pos hl] at hi
        by_cases ha : s.isCallActive = true <;>
          simp only [ha, if_pos, if_neg, Bool.false_eq_true, not_false_iff] at hi <;>
          · simp only [applyState, timerIds, List.mem_map] at hi
            obtain ⟨t, ht, hts⟩ := hi
            simp only [timerIds, List.mem_map]
            exact ⟨t, List.mem_of_mem_filter ht, hts⟩
      · rwa [if_neg hl] at hi
  | flushFire fid =>
      left
      simp only [step] at hi
      unfold onFlushFire at hi
      cases hf : s.flushes.find? (fun f => f.id == fid) with
      | none => rwa [hf] at hi
      | some f =>
          rw [hf] at hi
          unfold sendTextToVapi at hi
          by_cases hgd : (s.vapi.isNone || !s.isCallActive) = true <;>
            simp only [hgd, if_pos, if_neg, Bool.false_eq_true, not_false_iff] at hi <;>
            simpa [timerIds] using hi


theorem timer_dead_step {s : Ctrl} {tid : Nat} (e : Event)
    (hd : tid ∉ timerIds s) (hlt : tid < s.nextId) :
    tid ∉ timerIds (step s e) ∧ tid < (step s e).nextId := by
  constructor
  · intro hmem
    rcases timerIds_step e tid hmem with h | h
    · exact hd h
    · omega
  · exact lt_of_lt_of_le hlt (nextId_le_step s e)

theorem timer_dead_run {s : Ctrl} {tid : Nat} (es : List Event)
    (hd : tid ∉ timerIds s) (hlt : tid < s.nextId) :
    tid ∉ timerIds (run s es) ∧ tid < (run s es).nextId := by
  induction es generalizing s with
  | nil => exact ⟨hd, hlt⟩
  | cons e es ih =>
      obtain ⟨hd2, hlt2⟩ := timer_dead_step e hd hlt
      exact ih hd2 hlt2

theorem noTag_step {s : Ctrl} {q : Nat} (e : Event)
    (hq1 : q ∉ flushIds s) (hq2 : q ∉ sentTags s) (hlt : q < s.nextId)
    (hne : e ≠ Event.callStart) :
    q ∉ flushIds (step s e) ∧ q ∉ sentTags (step s e) ∧ q < (step s e).nextId := by
  refine ?_
  have hlt2 : q < (step s e).nextId := lt_of_lt_of_le hlt (nextId_le_step s e)
  cases e with
  | micClick menv senv fresh =>
      refine ⟨?_, ?_, hlt2⟩ <;>
      · simp only [step]
        by_cases hg : micClickAllowed s.ui = true
        · rw [if_pos hg]
          unfold handleMicClick
          by_cases ha : s.isCallActive = true
          · rw [if_pos ha]
            cases hv : s.vapi with
            | none => rw [stopCall_eq_none hv]; assumption
            | some sid => rw [stopCall_eq_some hv]; assumption
          · rw [if_neg ha]
            simp only [applyState]
            cases hperm : getMicPermissionState menv with
            | denied => assumption
            | prompt =>
                by_cases hr : menv.requestGranted = true
                · simp only [hr, if_pos]
                  first
                  | simpa [flushIds, startCall_flushes] using hq1
                  | simpa [sentTags, startCall_sent] using hq2
                · simp only [hr, if_neg, Bool.false_eq_true, not_false_iff]
                  assumption
            | granted =>
                first
                | simpa [flushIds, startCall_flushes] using hq1
                | simpa [sentTags, startCall_sent] using hq2
        · rw [if_neg hg]; assumption
  | textSend senv fresh raw =>
      refine ⟨?_, ?_, hlt2⟩ <;>
      · simp only [step]
        by_cases hg : textSendAllowed s.ui = true
        · rw [if_pos hg]
          unfold handleTextSend
          by_cases he : (jsTrim raw == "") = true
          · rw [if_pos he]; assumption
          · rw [if_neg he]
            by_cases ha : s.isCallActive = true
            · rw [if_pos ha]
              unfold sendTextToVapi
              by_cases hgd : (s.vapi.isNone || !s.isCallActive) = true
              · rw [if_pos hgd]; assumption
              · rw [if_neg hgd]
                first
                | simpa [flushIds] using hq1
                | simpa [sentTags, List.filterMap_append] using hq2
            · rw [if_neg ha]
              first
              | simpa [flushIds, startCall_flushes] using hq1
              | simpa [sentTags, startCall_sent] using hq2
        · rw [if_neg hg]; assumption
  | callStart => exact absurd rfl hne
  | callEnd =>
      refine ⟨?_, ?_, hlt2⟩ <;>
      · simp only [step]
        unfold onCallEnd
        cases hA : s.agentSpeakingTimer <;> cases hv : s.vapi <;>
          first
          | simpa [applyState, flushIds] using hq1
          | simpa [applyState, sentTags] using hq2
  | speechStart =>
      refine ⟨?_, ?_, hlt2⟩ <;>
      · simp only [step]
        unfold onSpeechStart
        by_cases ha : s.isCallActive = true <;>
          simp only [ha, if_pos, if_neg, Bool.false_eq_true, not_false_iff] <;>
          first
          | simpa [applyState, flushIds] using hq1
          | simpa [applyState, sentTags] using hq2
  | speechEnd =>
      refine ⟨?_, ?_, hlt2⟩ <;>
      · simp only [step]
        unfold onSpeechEnd
        by_cases ha : s.isCallActive = true <;>
          simp only [ha, if_pos, if_neg, Bool.false_eq_true, not_false_iff] <;>
          first
          | simpa [applyState, flushIds] using hq1
          | simpa [applyState, sentTags] using hq2
  | message msg =>
      refine ⟨?_, ?_, hlt2⟩ <;>
      · simp only [step]
        unfold onMessage
        by_cases hc : (msg.type == "speech-update" && s.isCallActive && msg.role == "assistant") = true
        · rw [if_pos hc]
          by_cases hst : (msg.status == "started") = true
          · rw [if_pos hst]
            cases hA : s.agentSpeakingTimer <;>
              first
              | simpa [applyState, flushIds] using hq1
              | simpa [applyState, sentTags] using hq2
          · rw [if_neg hst]
            first
            | simpa [flushIds] using hq1
            | simpa [sentTags] using hq2
        · rw [if_neg hc]; assumption
  | vapiError =>
      refine ⟨?_, ?_, hlt2⟩ <;>
      · simp only [step]
        unfold onVapiError
        cases hv : s.vapi <;>
          first
          | simpa [applyState, flushIds] using hq1
          | simpa [applyState, sentTags] using hq2
  | timerFire tid =>
      refine ⟨?_, ?_, hlt2⟩ <;>
      · simp only [step]
        unfold onTimerFire
        by_cases hl : (s.liveTimers.any fun t => t.id == tid) = true
        · rw [if_pos hl]
          by_cases ha : s.isCallActive = true <;>
            simp only [ha, if_pos, if_neg, Bool.false_eq_true, not_false_iff] <;>
            first
            | simpa [applyState, flushIds] using hq1
            | simpa [applyState, sentTags] using hq2
        · rw [if_neg hl]; assumption
  | flushFire fid =>
      simp only [step]
      unfold onFlushFire
      cases hf : s.flushes.find? (fun f => f.id == fid) with
      | none => exact ⟨hq1, hq2, hlt⟩
      | some f =>
          have hmem : f ∈ s.flushes := List.mem_of_find?_eq_some hf
          have hfid : f.id = fid := by
            have := List.find?_some hf
            simpa using this
          have hfidmem : fid ∈ flushIds s := by
            simp only [flushIds, List.mem_map]
            exact ⟨f, hmem, hfid⟩
          have hqfid : q ≠ fid := fun hqe => hq1 (hqe ▸ hfidmem)
          have hflt : q ∉ (s.flushes.filter (fun g => g.id != fid)).map Flush.id := by
            intro hmf
            rw [flushIds_map_filter] at hmf
            exact hq1 (List.mem_of_mem_filter hmf)
          unfold sendTextToVapi
          by_cases hgd : (s.vapi.isNone || !s.isCallActive) = true
          · simp only [hgd, if_pos]
            exact ⟨by simpa [flushIds] using hflt, hq2, hlt⟩
          · simp only [hgd, if_neg, Bool.false_eq_true, not_false_iff]
            refine ⟨by simpa [flushIds] using hflt, ?_, hlt⟩
            simp only [sentTags, List.filterMap_append]
            intro hq
            rcases List.mem_append.mp hq with hq | hq
            · exact hq2 hq
            · simp at hq
              exact hqfid hq

theorem noTag_run {s : Ctrl} {q : Nat} (es : List Event)
    (hq1 : q ∉ flushIds s) (hq2 : q ∉ sentTags s) (hlt : q < s.nextId)
    (hne : Event.callStart ∉ es) :
    q ∉ flushIds (run s es) ∧ q ∉ sentTags (run s es) ∧ q < (run s es).nextId := by
  induction es generalizing s with
  | nil => exact ⟨hq1, hq2, hlt⟩
  | cons e es ih =>
      have hne1 : e ≠ Event.callStart := by
        intro he; exact hne (by rw [he]; exact List.mem_cons_self _ _)
      have hne2 : Event.callStart ∉ es := fun hm => hne (List.mem_cons_of_mem _ hm)
      obtain ⟨a, b, c⟩ := noTag_step e hq1 hq2 hlt hne1
      exact ih a b c hne2


theorem countTag_le_one {s : Ctrl} (h : Inv s) (q : Nat) : countTag s.sent q ≤ 1 :=
  List.nodup_iff_count_le_one.mp h.2.2.2.2.2.2.2.1 q

theorem countTag_eq_zero {s : Ctrl} {q : Nat} (h : q ∉ sentTags s) :
    countTag s.sent q = 0 :=
  List.count_eq_zero.mpr h

theorem onFlushFire_delivers {s : Ctrl} {fr : Flush} (h : Inv s)
    (hm : fr ∈ s.flushes) (ha : s.isCallActive = true) (hv : s.vapi.isSome = true) :
    onFlushFire s fr.id =
      { s with flushes := s.flushes.filter (fun g => g.id != fr.id),
               sent := s.sent ++ [⟨some fr.id, fr.text⟩] } := by
  have h7 : (flushIds s).Nodup := h.2.2.2.2.2.2.1
  have hsome : (s.flushes.find? (fun f => f.id == fr.id)).isSome := by
    rw [List.find?_isSome]
    exact ⟨fr, hm, by simp⟩
  cases hf : s.flushes.find? (fun f => f.id == fr.id) with
  | none => rw [hf] at hsome; simp at hsome
  | some g =>
      have hgm : g ∈ s.flushes := List.mem_of_find?_eq_some hf
      have hgid : g.id = fr.id := by
        have := List.find?_some hf
        simpa using this
      have hge : g = fr := List.inj_on_of_nodup_map h7 hgm hm hgid
      subst hge
      unfold onFlushFire
      rw [hf]
      unfold sendTextToVapi
      obtain ⟨sid, hsid⟩ := Option.isSome_iff_exists.mp hv
      simp [hsid, ha]

theorem onFlushFire_dead {s : Ctrl} (fid : Nat)
    (hg : s.vapi = none ∨ s.isCallActive = false) :
    (onFlushFire s fid).sent = s.sent ∧
    (onFlushFire s fid).pendingText = s.pendingText ∧
    fid ∉ flushIds (onFlushFire s fid) := by
  have hgd : (s.vapi.isNone || !s.isCallActive) = true := by
    rcases hg with hg | hg <;> simp [hg]
  unfold onFlushFire
  cases hf : s.flushes.find? (fun f => f.id == fid) with
  | none =>
      refine ⟨rfl, rfl, ?_⟩
      have := List.find?_eq_none.mp hf
      intro hmem
      simp only [flushIds, List.mem_map] at hmem
      obtain ⟨f, hfm, hfi⟩ := hmem
      exact this f hfm (by simp [hfi])
  | some f =>
      unfold sendTextToVapi
      simp only [hgd, if_pos]
      refine ⟨by trivial, by trivial, ?_⟩
      intro hmem
      simp only [flushIds, flushIds_map_filter, List.mem_filter] at hmem
      simp at hmem


theorem onCallStart_pending {s : Ctrl} {q : Nat} {t : String}
    (hp : s.pendingText = some (q, t)) (ht : t ≠ "") :
    onCallStart s =
      { s with isCallActive := true, ui := UiState.listening, pendingText := none,
               flushes := s.flushes ++ [⟨q, t, 600⟩] } := by
  simp [onCallStart, applyState, hp, ht]

theorem onCallStart_nopending {s : Ctrl} (hp : s.pendingText = none) :
    onCallStart s = { s with isCallActive := true, ui := UiState.listening } := by
  simp [onCallStart, applyState, hp]

theorem onVapiError_pendingText (s : Ctrl) : (onVapiError s).pendingText = s.pendingText := by
  cases hv : s.vapi <;> simp [onVapiError, applyState, hv]

theorem onCallEnd_pendingText (s : Ctrl) : (onCallEnd s).pendingText = s.pendingText := by
  cases hv : s.vapi <;> cases hA : s.agentSpeakingTimer <;>
    simp [onCallEnd, applyState, hv, hA]

theorem sendTextToVapi_pendingText (tag : Option Nat) (s : Ctrl) (text : String) :
    (sendTextToVapi tag s text).pendingText = s.pendingText := by
  unfold sendTextToVapi
  by_cases hgd : (s.vapi.isNone || !s.isCallActive) = true
  · rw [if_pos hgd]
  · rw [if_neg hgd]

theorem handleMicClick_pendingText (menv : MicEnv) (senv : StartEnv) (fresh : String)
    (s : Ctrl) : (handleMicClick menv senv fresh s).pendingText = s.pendingText := by
  unfold handleMicClick
  by_cases ha : s.isCallActive = true
  · rw [if_pos ha]
    cases hv : s.vapi with
    | none => rw [stopCall_eq_none hv]
    | some sid => rw [stopCall_eq_some hv]
  · rw [if_neg ha]
    simp only [applyState]
    cases hperm : getMicPermissionState menv with
    | denied => rfl
    | prompt =>
        by_cases hr : menv.requestGranted = true
        · simp only [hr, if_pos, startCall_pendingText]
        · simp only [hr, if_neg, Bool.false_eq_true, not_false_iff]
    | granted => simp only [startCall_pendingText]

theorem step_pendingText_cases (s : Ctrl) (e : Event) :
    (step s e).pendingText = s.pendingText ∨ e = Event.callStart ∨
    (∃ senv fresh raw, e = Event.textSend senv fresh raw ∧
      (step s e).pendingText = some (s.nextId, jsTrim raw)) := by
  cases e with
  | micClick menv senv fresh =>
      left
      simp only [step]
      by_cases hg : micClickAllowed s.ui = true
      · rw [if_pos hg]; exact handleMicClick_pendingText menv senv fresh s
      · rw [if_neg hg]
  | textSend senv fresh raw =>
      simp only [step]
      by_cases hg : textSendAllowed s.ui = true
      · rw [if_pos hg]
        unfold handleTextSend
        by_cases he : (jsTrim raw == "") = true
        · left; rw [if_pos he]
        · rw [if_neg he]
          by_cases ha : s.isCallActive = true
          · left
            rw [if_pos ha]
            exact sendTextToVapi_pendingText none s (jsTrim raw)
          · right; right
            refine ⟨senv, fresh, raw, rfl, ?_⟩
            rw [if_neg ha]
            simp only [startCall_pendingText]
      · left; rw [if_neg hg]
  | callStart => right; left; rfl
  | callEnd => left; exact onCallEnd_pendingText s
  | speechStart =>
      left
      simp only [step]
      unfold onSpeechStart
      by_cases ha : s.isCallActive = true <;> simp [applyState, ha]
  | speechEnd =>
      left
      simp only [step]
      unfold onSpeechEnd
      by_cases ha : s.isCallActive = true <;> simp [applyState, ha]
  | message msg =>
      left
      simp only [step]
      unfold onMessage
      by_cases hc : (msg.type == "speech-update" && s.isCallActive && msg.role == "assistant") = true
      · rw [if_pos hc]
        by_cases hst : (msg.status == "started") = true
        · rw [if_pos hst]
          cases hA : s.agentSpeakingTimer <;> simp [applyState]
        · rw [if_neg hst]
      · rw [if_neg hc]
  | vapiError => left; exact onVapiError_pendingText s
  | timerFire tid =>
      left
      simp only [step]
      unfold onTimerFire
      by_cases hl : (s.liveTimers.any fun t => t.id == tid) = true
      · rw [if_pos hl]
        by_cases ha : s.isCallActive = true <;> simp [applyState, ha]
      · rw [if_neg hl]
  | flushFire fid =>
      left
      simp only [step]
      unfold onFlushFire
      cases hf : s.flushes.find? (fun f => f.id == fid) with
      | none => rfl
      | some f => exact sendTextToVapi_pendingText (some fid) _ f.text

theorem activeCalls_le_one {s : Ctrl} (h : Inv s) : s.activeCalls.length ≤ 1 := by
  have h11 := h.2.2.2.2.2.2.2.2.2.2.1
  rw [h11]
  cases s.vapi <;> simp


theorem nextId_le_run (s : Ctrl) (es : List Event) : s.nextId ≤ (run s es).nextId := by
  induction es generalizing s with
  | nil => exact le_refl _
  | cons e es ih => exact le_trans (nextId_le_step s e) (ih (step s e))

/-! ## Claims -/

/-- Claim C8: `getOrCreateUserId` is idempotent.  On a store whose fixed
key `calendarUserId` holds nothing truthy, the first call returns the
freshly generated identifier (supplied by the `crypto.randomUUID()`
oracle, always a non-empty UUID string) and persists it under that key;
every subsequent call on the resulting store returns the same string
without consulting the generator, and any call on a store already
holding a truthy id returns that id with the store unchanged. -/
theorem C8_getOrCreateUserId_idempotent (st : Store) (fresh : String)
    (hf : fresh ≠ "") (h0 : jsTruthy (st.get "calendarUserId") = false) :
    (getOrCreateUserId fresh st).1 = fresh ∧
    (getOrCreateUserId fresh st).2 = st.set "calendarUserId" fresh ∧
    (∀ fresh2 : String,
      getOrCreateUserId fresh2 (st.set "calendarUserId" fresh)
        = (fresh, st.set "calendarUserId" fresh)) ∧
    (∀ (fresh2 : String) (st2 : Store), jsTruthy (st2.get "calendarUserId") = true →
      getOrCreateUserId fresh2 st2 = ((st2.get "calendarUserId").getD "", st2)) := by
  refine ⟨?_, ?_, ?_, ?_⟩
  · simp [getOrCreateUserId, h0]
  · simp [getOrCreateUserId, h0]
  · intro fresh2
    have hget : (st.set "calendarUserId" fresh).get "calendarUserId" = some fresh := by
      simp [Store.get, Store.set]
    simp [getOrCreateUserId, hget, jsTruthy, hf]
  · intro fresh2 st2 htr
    cases hget : st2.get "calendarUserId" with
    | none => rw [hget] at htr; simp [jsTruthy] at htr
    | some v =>
        rw [hget] at htr
        simp [getOrCreateUserId, hget, htr]

theorem C8_witness :
    getOrCreateUserId "id1" [] = ("id1", [("calendarUserId", "id1")]) ∧
    getOrCreateUserId "id2" [("calendarUserId", "id1")]
      = ("id1", [("calendarUserId", "id1")]) := by
  have h := C8_getOrCreateUserId_idempotent [] "id1" (by decide) (by decide)
  constructor
  · rw [Prod.ext_iff]
    refine ⟨h.1, ?_⟩
    rw [h.2.1]
    decide
  · have h3 := h.2.2.1 "id2"
    rw [show Store.set [] "calendarUserId" "id1" = [("calendarUserId", "id1")] from by decide] at h3
    exact h3


/-- Claim C5: a throw while opening the transport session (constructing
it or awaiting `vapi.start`) lands in the catch block of `startCall`:
the state becomes `call-error`, the session reference is discarded
(`vapi = null`) and the call is marked inactive.  No other failure mode
of the start sequence produces `call-error`: when the open succeeds the
attempt ends in `connecting` regardless of the pre-registration
outcome. -/
theorem C5_transport_open_failure (env : StartEnv) (fresh : String) (s : Ctrl) :
    (env.startFails = true →
      (startCall env fresh s).ui = UiState.callError ∧
      (startCall env fresh s).vapi = none ∧
      (startCall env fresh s).isCallActive = false) ∧
    (env.startFails = false →
      (startCall env fresh s).ui = UiState.connecting) := by
  constructor
  · intro hsf
    obtain ⟨a, b, c, _⟩ := startCall_fail env fresh s hsf
    exact ⟨a, b, c⟩
  · intro hsf
    exact (startCall_ok env fresh s hsf).1

theorem C5_witness :
    (startCall senvFail "u1" initCtrl).ui = UiState.callError ∧
    (startCall senvFail "u1" initCtrl).vapi = none ∧
    (startCall senvFail "u1" initCtrl).isCallActive = false ∧
    (startCall senvNoReg "u1" initCtrl).ui = UiState.connecting := by
  have h1 := (C5_transport_open_failure senvFail "u1" initCtrl).1 (by decide)
  have h2 := (C5_transport_open_failure senvNoReg "u1" initCtrl).2 (by decide)
  exact ⟨h1.1, h1.2.1, h1.2.2, h2⟩

/-- Claim C6: when the pre-registration call fails, `startCall` swallows
the failure: the attempt does not end in `call-error` (the open
proceeds, ending the synchronous part in `connecting`), and the
transport is started with the resolved identity as `userId` but with no
`sessionToken` in the variable values. -/
theorem C6_preregistration_swallowed (env : StartEnv) (fresh : String) (s : Ctrl)
    (hp : env.preRegFails = true) (hs : env.startFails = false) :
    (startCall env fresh s).ui = UiState.connecting ∧
    (startCall env fresh s).starts = s.starts ++
      [⟨s.nextId, (getOrCreateUserId fresh s.store).1, none⟩] := by
  obtain ⟨a, _, _, d⟩ := startCall_ok env fresh s hs
  refine ⟨a, ?_⟩
  rw [d]
  simp [hp, jsTruthy]

theorem C6_witness :
    (startCall senvNoReg "u1" initCtrl).ui = UiState.connecting ∧
    (startCall senvNoReg "u1" initCtrl).starts = [⟨0, "u1", none⟩] := by
  have h := C6_preregistration_swallowed senvNoReg "u1" initCtrl (by decide) (by decide)
  refine ⟨h.1, ?_⟩
  rw [h.2]
  decide

/-- Claim C7: on a voice start attempt (mic click with no active call),
a permission query answering `denied` settles the controller at
`mic-denied` without ever invoking `getUserMedia`; and `getUserMedia` is
invoked only when the permission gate reports `prompt`. -/
theorem C7_denied_never_requests (menv : MicEnv) (senv : StartEnv) (fresh : String)
    (s : Ctrl) (ha : s.isCallActive = false) :
    (getMicPermissionState menv = PermState.denied →
      (handleMicClick menv senv fresh s).ui = UiState.micDenied ∧
      (handleMicClick menv senv fresh s).micRequests = s.micRequests) ∧
    ((handleMicClick menv senv fresh s).micRequests ≠ s.micRequests →
      getMicPermissionState menv = PermState.prompt) := by
  constructor
  · intro hq
    unfold handleMicClick
    rw [if_neg (by simp [ha])]
    rw [hq]
    simp [applyState]
  · intro hne
    unfold handleMicClick at hne
    rw [if_neg (by simp [ha])] at hne
    cases hperm : getMicPermissionState menv with
    | denied =>
        rw [hperm] at hne
        simp [applyState] at hne
    | prompt => rfl
    | granted =>
        rw [hperm] at hne
        rw [startCall_micRequests] at hne
        simp [applyState] at hne

theorem C7_witness :
    (handleMicClick menvDeny senvOk "u1" initCtrl).ui = UiState.micDenied ∧
    (handleMicClick menvDeny senvOk "u1" initCtrl).micRequests = initCtrl.micRequests := by
  exact (C7_denied_never_requests menvDeny senvOk "u1" initCtrl (by decide)).1 (by decide)


/-- Claim C9: the Pending Text slot is a frame of the error paths.  The
transport `error` handler and the `call-end` handler leave `pendingText`
unchanged, every `startCall` run (including a session-open failure that
ends in `call-error`) leaves it unchanged, the only event whose handler
can clear a non-empty slot is the transport `call-start`, and a truthy
queued text still present when the next session reports `call-start` is
moved into the settle-delay flush of that session. -/
theorem C9_pendingText_frame (s : Ctrl) :
    (step s Event.vapiError).pendingText = s.pendingText ∧
    (step s Event.callEnd).pendingText = s.pendingText ∧
    (∀ (env : StartEnv) (fresh : String),
      (startCall env fresh s).pendingText = s.pendingText) ∧
    (∀ e : Event, (step s e).pendingText = none →
      s.pendingText = none ∨ e = Event.callStart) ∧
    (∀ (q : Nat) (t : String), s.pendingText = some (q, t) → t ≠ "" →
      (step s Event.callStart).pendingText = none ∧
      Flush.mk q t 600 ∈ (step s Event.callStart).flushes) := by
  refine ⟨onVapiError_pendingText s, onCallEnd_pendingText s,
    fun env fresh => startCall_pendingText env fresh s, ?_, ?_⟩
  · intro e hnone
    rcases step_pendingText_cases s e with hc | hc | ⟨senv, fresh, raw, he, hc⟩
    · left; rw [← hc]; exact hnone
    · right; exact hc
    · rw [hc] at hnone
      exact absurd hnone (by simp)
  · intro q t hp ht
    have hred := onCallStart_pending hp ht
    constructor
    · show (onCallStart s).pendingText = none
      rw [hred]
    · show Flush.mk q t 600 ∈ (onCallStart s).flushes
      rw [hred]
      simp

theorem C9_witness :
    (step sDenied Event.vapiError).pendingText = sDenied.pendingText ∧
    ((step sDenied (Event.textSend senvFail "u2" "hi")).pendingText = none →
      sDenied.pendingText = none ∨ Event.textSend senvFail "u2" "hi" = Event.callStart) := by
  exact ⟨(C9_pendingText_frame sDenied).1,
    (C9_pendingText_frame sDenied).2.2.2.1 (Event.textSend senvFail "u2" "hi")⟩

/-- Claim C10: `sendTextToVapi` is a no-op whenever the session
reference is null or no call is active; in particular a settle-delay
flush firing after its session ended or errored delivers nothing, leaves
the Pending Text slot untouched (the dropped text is not re-queued), and
the fired flush is unscheduled. -/
theorem C10_send_noop_when_dead (s : Ctrl) (tag : Option Nat) (text : String)
    (fid : Nat) (hg : s.vapi = none ∨ s.isCallActive = false) :
    sendTextToVapi tag s text = s ∧
    (step s (Event.flushFire fid)).sent = s.sent ∧
    (step s (Event.flushFire fid)).pendingText = s.pendingText ∧
    fid ∉ flushIds (step s (Event.flushFire fid)) := by
  constructor
  · unfold sendTextToVapi
    rw [if_pos]
    rcases hg with hg | hg <;> simp [hg]
  · exact onFlushFire_dead fid hg

theorem C10_witness :
    sendTextToVapi none initCtrl "hello" = initCtrl ∧
    (step (run sLive [Event.callEnd]) (Event.flushFire 0)).sent
      = (run sLive [Event.callEnd]).sent := by
  refine ⟨(C10_send_noop_when_dead initCtrl none "hello" 0 (Or.inl (by decide))).1, ?_⟩
  exact (C10_send_noop_when_dead (run sLive [Event.callEnd]) none "hello" 0
    (Or.inr (by decide))).2.1


/-- Claim C3, counterexample: a debounce timer armed during a session is
NOT cancelled when the session terminates through the transport `error`
handler.  Concrete trace: granted start, `call-start`, assistant
`speech-update stopped` (arms the 800ms timer with handle id 1), then
`error`.  After the session has terminated the timer handle is still set
and the scheduled timer is still live, refuting the claim that ending
the call in any way cancels the debounce timer. -/
theorem C3_counterexample :
    (run initCtrl [Event.micClick menvGrant senvOk "u1", Event.callStart,
        Event.message msgStopped, Event.vapiError]).agentSpeakingTimer = some 1 ∧
    Timer.mk 1 800 ∈ (run initCtrl [Event.micClick menvGrant senvOk "u1",
        Event.callStart, Event.message msgStopped, Event.vapiError]).liveTimers ∧
    (run initCtrl [Event.micClick menvGrant senvOk "u1", Event.callStart,
        Event.message msgStopped, Event.vapiError]).ui = UiState.callError := by
  decide

/-- Claim C3, amended: the `call-end` handler cancels and discards the
outstanding debounce timer (the handle is nulled and the scheduled timer
is unscheduled), but the `error` handler does not touch it — the handle
and the scheduled timer survive an error-termination.  A timer that
fires once the call is no longer active cannot change the UI state
(its callback is guarded by `isCallActive`). -/
theorem C3_amended_cancellation (s : Ctrl) (tid : Nat) :
    ((step s Event.callEnd).agentSpeakingTimer = none) ∧
    (∀ tid2 : Nat, s.agentSpeakingTimer = some tid2 →
      tid2 ∉ timerIds (step s Event.callEnd)) ∧
    ((step s Event.vapiError).agentSpeakingTimer = s.agentSpeakingTimer) ∧
    ((step s Event.vapiError).liveTimers = s.liveTimers) ∧
    (s.isCallActive = false → (step s (Event.timerFire tid)).ui = s.ui) := by
  refine ⟨?_, ?_, ?_, ?_, ?_⟩
  · show (onCallEnd s).agentSpeakingTimer = none
    unfold onCallEnd
    cases hA : s.agentSpeakingTimer <;> simp [applyState]
  · intro tid2 hA
    show tid2 ∉ timerIds (onCallEnd s)
    unfold onCallEnd
    rw [hA]
    simp only [applyState, timerIds, timerIds_map_filter]
    intro hmem
    have := List.mem_filter.mp hmem
    simp at this
  · show (onVapiError s).agentSpeakingTimer = s.agentSpeakingTimer
    cases hv : s.vapi <;> simp [onVapiError, applyState, hv]
  · show (onVapiError s).liveTimers = s.liveTimers
    cases hv : s.vapi <;> simp [onVapiError, applyState, hv]
  · intro ha
    show (onTimerFire s tid).ui = s.ui
    unfold onTimerFire
    by_cases hl : (s.liveTimers.any fun t => t.id == tid) = true
    · rw [if_pos hl]
      simp [ha]
    · rw [if_neg hl]

theorem C3_amended_witness :
    (step sAgent Event.callEnd).agentSpeakingTimer = none ∧
    (step (run sAgent [Event.message msgStopped, Event.vapiError])
        (Event.timerFire 1)).ui
      = (run sAgent [Event.message msgStopped, Event.vapiError]).ui := by
  refine ⟨(C3_amended_cancellation sAgent 0).1, ?_⟩
  exact (C3_amended_cancellation
    (run sAgent [Event.message msgStopped, Event.vapiError]) 1).2.2.2.2 (by decide)

/-- Claim C4: with a call active, the mic click only issues a stop
request to the transport: the handler is exactly `stopCall`, which
increments the stop counter when a session reference exists and changes
nothing else — no new transport session is constructed and no start is
issued.  Moreover, in every reachable state of the controller at most
one call session is active. -/
theorem C4_single_session :
    (∀ (s : Ctrl) (menv : MicEnv) (senv : StartEnv) (fresh : String),
      s.isCallActive = true →
      handleMicClick menv senv fresh s = stopCall s ∧
      (stopCall s).starts = s.starts ∧
      (stopCall s).activeCalls = s.activeCalls ∧
      (stopCall s).vapi = s.vapi ∧
      (stopCall s).nextId = s.nextId ∧
      (∀ sid : Nat, s.vapi = some sid → (stopCall s).stops = s.stops + 1)) ∧
    (∀ es : List Event, (run initCtrl es).activeCalls.length ≤ 1) := by
  constructor
  · intro s menv senv fresh ha
    refine ⟨?_, ?_, ?_, ?_, ?_, ?_⟩
    · unfold handleMicClick
      rw [if_pos ha]
    · cases hv : s.vapi with
      | none => rw [stopCall_eq_none hv]
      | some sid => rw [stopCall_eq_some hv]
    · cases hv : s.vapi with
      | none => rw [stopCall_eq_none hv]
      | some sid => rw [stopCall_eq_some hv]
    · cases hv : s.vapi with
      | none => rw [stopCall_eq_none hv]; exact hv
      | some sid => rw [stopCall_eq_some hv]; exact hv
    · cases hv : s.vapi with
      | none => rw [stopCall_eq_none hv]
      | some sid => rw [stopCall_eq_some hv]
    · intro sid hv
      rw [stopCall_eq_some hv]
  · intro es
    exact activeCalls_le_one (inv_run es (by decide))

theorem C4_witness :
    handleMicClick menvGrant senvOk "u2" sLive = stopCall sLive ∧
    (stopCall sLive).activeCalls = sLive.activeCalls ∧
    (run initCtrl [Event.micClick menvGrant senvOk "u1",
      Event.callStart]).activeCalls.length ≤ 1 := by
  have h := C4_single_session
  have h1 := h.1 sLive menvGrant senvOk "u2" (by decide)
  exact ⟨h1.1, h1.2.2.1,
    h.2 [Event.micClick menvGrant senvOk "u1", Event.callStart]⟩


/-- Claim C1: debounced agent-speech tracking.  From an active
`agent-speaking` state, an assistant `speech-update stopped` does not
transition to `listening`: the UI state is unchanged and an 800ms
debounce timer is armed (fresh handle, delay 800).  If an assistant
`speech-update started` is processed while that very timer is still
pending (the handle still names it and the call is still active —
i.e. the `started` arrived before the timer fired), the timer is
cancelled: the state is `agent-speaking` again, the timer is
unscheduled, and its fire event is a complete no-op on every later
state, so the debounced transition to `listening` never happens. -/
theorem C1_debounce_cancel (s : Ctrl) (ha : s.isCallActive = true)
    (hu : s.ui = UiState.agentSpeaking) :
    (onMessage s msgStopped).ui = UiState.agentSpeaking ∧
    (onMessage s msgStopped).agentSpeakingTimer = some s.nextId ∧
    Timer.mk s.nextId 800 ∈ (onMessage s msgStopped).liveTimers ∧
    (∀ es : List Event,
      (run (onMessage s msgStopped) es).agentSpeakingTimer = some s.nextId →
      (run (onMessage s msgStopped) es).isCallActive = true →
      ((onMessage (run (onMessage s msgStopped) es) msgStarted).ui
          = UiState.agentSpeaking ∧
       (onMessage (run (onMessage s msgStopped) es) msgStarted).agentSpeakingTimer
          = none ∧
       s.nextId ∉ timerIds (onMessage (run (onMessage s msgStopped) es) msgStarted) ∧
       (∀ es2 : List Event,
         step (run (onMessage (run (onMessage s msgStopped) es) msgStarted) es2)
             (Event.timerFire s.nextId)
           = run (onMessage (run (onMessage s msgStopped) es) msgStarted) es2))) := by
  have e1 : onMessage s msgStopped =
      { s with liveTimers := s.liveTimers ++ [⟨s.nextId, 800⟩],
               agentSpeakingTimer := some s.nextId,
               nextId := s.nextId + 1 } := onMessage_stopped ha
  refine ⟨?_, ?_, ?_, ?_⟩
  · rw [e1]; exact hu
  · rw [e1]
  · rw [e1]; simp
  · intro es hA hact
    have e2 : onMessage (run (onMessage s msgStopped) es) msgStarted =
        { run (onMessage s msgStopped) es with
            liveTimers := (run (onMessage s msgStopped) es).liveTimers.filter
              (fun t => t.id != s.nextId),
            agentSpeakingTimer := none,
            ui := UiState.agentSpeaking } := onMessage_started_cancel hact hA
    have hdead : s.nextId ∉
        timerIds (onMessage (run (onMessage s msgStopped) es) msgStarted) := by
      rw [e2]
      simp only [timerIds, timerIds_map_filter]
      intro hmem
      have := List.mem_filter.mp hmem
      simp at this
    refine ⟨?_, ?_, hdead, ?_⟩
    · rw [e2]
    · rw [e2]
    · intro es2
      have hlt : s.nextId <
          (onMessage (run (onMessage s msgStopped) es) msgStarted).nextId := by
        rw [e2]
        show s.nextId < (run (onMessage s msgStopped) es).nextId
        have h1 : (onMessage s msgStopped).nextId = s.nextId + 1 := by rw [e1]
        have h2 := nextId_le_run (onMessage s msgStopped) es
        omega
      obtain ⟨hd3, _⟩ := timer_dead_run es2 hdead hlt
      exact onTimerFire_not_live hd3

theorem C1_witness :
    (onMessage sAgent msgStopped).ui = UiState.agentSpeaking ∧
    (onMessage sAgent msgStopped).agentSpeakingTimer = some sAgent.nextId ∧
    (onMessage (run (onMessage sAgent msgStopped) []) msgStarted).agentSpeakingTimer
      = none := by
  have h := C1_debounce_cancel sAgent (by decide) (by decide)
  refine ⟨h.1, h.2.1, ?_⟩
  exact (h.2.2.2 [] (by decide) (by decide)).2.1


/-- Claim C2, counterexample: the queued text is NOT always sent exactly
once.  Concrete trace: with no active call (state `mic-denied`), the
user submits "hi"; the text is queued and a call is started; the session
reaches `listening` (`call-start`, which schedules the 600ms settle
flush); the call then ends within the settle delay; when the flush
fires, `sendTextToVapi` returns without sending.  The submitted text is
sent zero times — and it is no longer queued either. -/
theorem C2_counterexample :
    (run initCtrl [Event.micClick menvDeny senvOk "u1"]).isCallActive = false ∧
    (run initCtrl [Event.micClick menvDeny senvOk "u1",
        Event.textSend senvOk "u2" "hi"]).pendingText = some (0, "hi") ∧
    (run initCtrl [Event.micClick menvDeny senvOk "u1",
        Event.textSend senvOk "u2" "hi", Event.callStart]).ui = UiState.listening ∧
    Flush.mk 0 "hi" 600 ∈ (run initCtrl [Event.micClick menvDeny senvOk "u1",
        Event.textSend senvOk "u2" "hi", Event.callStart]).flushes ∧
    (run initCtrl [Event.micClick menvDeny senvOk "u1",
        Event.textSend senvOk "u2" "hi", Event.callStart, Event.callEnd,
        Event.flushFire 0]).sent = [] ∧
    (run initCtrl [Event.micClick menvDeny senvOk "u1",
        Event.textSend senvOk "u2" "hi", Event.callStart, Event.callEnd,
        Event.flushFire 0]).pendingText = none := by
  decide

/-- Claim C2, amended: submitting text with no active call stores it as
the single Pending Text slot and starts the call sequence with no
permission query and no `getUserMedia` request (ending the synchronous
start in `connecting` when the open succeeds).  The queued text is sent
to the transport at most once, and never before the session reaches
`listening`: no send of this queued instance can occur in any
continuation that contains no `call-start` event, the `call-start` that
first enters `listening` is what converts the surviving slot into the
settle-delay flush (delay 600ms), and if that flush fires while the
call is still live it delivers the text at that moment, exactly once. -/
theorem C2_amended_pending_text (s : Ctrl) (senv : StartEnv) (fresh raw : String)
    (h : Inv s) (ha : s.isCallActive = false) (hg : textSendAllowed s.ui = true)
    (ht : ¬ jsTrim raw = "") :
    (step s (Event.textSend senv fresh raw)).pendingText
        = some (s.nextId, jsTrim raw) ∧
    (step s (Event.textSend senv fresh raw)).micRequests = s.micRequests ∧
    (step s (Event.textSend senv fresh raw)).permQueries = s.permQueries ∧
    (senv.startFails = false →
      (step s (Event.textSend senv fresh raw)).ui = UiState.connecting) ∧
    (∀ es : List Event,
      countTag (run (step s (Event.textSend senv fresh raw)) es).sent s.nextId ≤ 1) ∧
    (∀ es : List Event, Event.callStart ∉ es →
      countTag (run (step s (Event.textSend senv fresh raw)) es).sent s.nextId = 0) ∧
    (∀ s2 : Ctrl, s2.pendingText = some (s.nextId, jsTrim raw) →
      (onCallStart s2).ui = UiState.listening ∧
      (onCallStart s2).pendingText = none ∧
      Flush.mk s.nextId (jsTrim raw) 600 ∈ (onCallStart s2).flushes) ∧
    (∀ s3 : Ctrl, Inv s3 → Flush.mk s.nextId (jsTrim raw) 600 ∈ s3.flushes →
      s3.isCallActive = true → s3.vapi.isSome = true →
      (onFlushFire s3 s.nextId).sent
          = s3.sent ++ [⟨some s.nextId, jsTrim raw⟩] ∧
      countTag (onFlushFire s3 s.nextId).sent s.nextId = 1) := by
  have hred : step s (Event.textSend senv fresh raw)
      = startCall senv fresh
          { s with pendingText := some (s.nextId, jsTrim raw),
                   nextId := s.nextId + 1 } := by
    simp only [step]
    rw [if_pos hg]
    simp only [handleTextSend]
    rw [if_neg (by simpa using ht)]
    rw [if_neg (by simp [ha])]
  have hfl : flushIds (step s (Event.textSend senv fresh raw)) = flushIds s := by
    rw [hred]
    simp [flushIds, startCall_flushes]
  have hsn : sentTags (step s (Event.textSend senv fresh raw)) = sentTags s := by
    rw [hred]
    simp [sentTags, startCall_sent]
  refine ⟨?_, ?_, ?_, ?_, ?_, ?_, ?_, ?_⟩
  · rw [hred, startCall_pendingText]
  · rw [hred, startCall_micRequests]
  · rw [hred, startCall_permQueries]
  · intro hsf
    rw [hred]
    exact (startCall_ok senv fresh _ hsf).1
  · intro es
    exact countTag_le_one (inv_run es (inv_step _ h)) s.nextId
  · intro es hnc
    have hq1 : s.nextId ∉ flushIds (step s (Event.textSend senv fresh raw)) := by
      rw [hfl]
      intro hmem
      simp only [flushIds, List.mem_map] at hmem
      obtain ⟨f, hf, hfi⟩ := hmem
      exact absurd (hfi ▸ h.2.2.1 f hf) (Nat.lt_irrefl _)
    have hq2 : s.nextId ∉ sentTags (step s (Event.textSend senv fresh raw)) := by
      rw [hsn]
      intro hmem
      exact absurd (h.2.2.2.2.1 _ hmem) (Nat.lt_irrefl _)
    have hq3 : s.nextId < (step s (Event.textSend senv fresh raw)).nextId := by
      rw [hred, startCall_nextId]
      show s.nextId < s.nextId + 1 + 1
      omega
    obtain ⟨_, hb, _⟩ := noTag_run es hq1 hq2 hq3 hnc
    exact countTag_eq_zero hb
  · intro s2 hp
    have hred2 := onCallStart_pending hp ht
    rw [hred2]
    exact ⟨rfl, rfl, by simp⟩
  · intro s3 h3 hm hact hvs
    have hdel : onFlushFire s3 s.nextId =
        { s3 with flushes := s3.flushes.filter (fun g => g.id != s.nextId),
                  sent := s3.sent ++ [⟨some s.nextId, jsTrim raw⟩] } :=
      onFlushFire_delivers h3 hm hact hvs
    have hq0 : s.nextId ∉ sentTags s3 := by
      refine h3.2.2.2.2.2.2.2.2.1 s.nextId ?_
      simp only [flushIds, List.mem_map]
      exact ⟨Flush.mk s.nextId (jsTrim raw) 600, hm, rfl⟩
    constructor
    · rw [hdel]
    · rw [hdel]
      show countTag (s3.sent ++ [⟨some s.nextId, jsTrim raw⟩]) s.nextId = 1
      simp only [countTag, List.filterMap_append]
      rw [List.count_append]
      have hz : List.count s.nextId (List.filterMap Sent.viaFlush s3.sent) = 0 :=
        List.count_eq_zero.mpr hq0
      rw [hz]
      simp

theorem C2_amended_witness :
    (step sDenied (Event.textSend senvOk "u2" "hi")).pendingText = some (0, "hi") ∧
    (step sDenied (Event.textSend senvOk "u2" "hi")).micRequests = sDenied.micRequests ∧
    countTag (run (step sDenied (Event.textSend senvOk "u2" "hi"))
        [Event.callStart, Event.flushFire 0]).sent 0 ≤ 1 ∧
    countTag (run (step sDenied (Event.textSend senvOk "u2" "hi")) []).sent 0 = 0 := by
  have h := C2_amended_pending_text sDenied senvOk "u2" "hi"
    (by decide) (by decide) (by decide) (by decide)
  exact ⟨h.1, h.2.1, h.2.2.2.2.1 [Event.callStart, Event.flushFire 0],
    h.2.2.2.2.2.1 [] (by simp)⟩

end Voice
